import Mathlib

/-!
A shallow embedding of the AstroChain repository (src/core/blockchain.py and
src/consensus/proof_of_astronomy.py).

External library calls are abstracted as parameters:
* hashlib.sha256(...).hexdigest() is modelled as a parameter H : String → String
  (the embedding never relies on properties of SHA-256 beyond it being a
  function of its input string);
* datetime.fromisoformat is modelled as a parameter P : String → Option DateTime
  (some = parsed, none = ValueError raised);
* the ambient wall clock used by is_time_for_new_block appears as an explicit
  elapsed-interval test egE : DateTime → Bool standing for
  (datetime.utcnow() - last_time) >= self.block_interval;
* construction-time timestamps (datetime.utcnow().isoformat()) are passed as
  explicit string arguments;
* Python float amounts, coordinates and fluxes are modelled as exact rationals,
  and the f-string rendering of a number is modelled by the injective rendering
  qstr below.
-/

namespace AstroChain

/-- Rendering of a rational number into a string, standing for Python's
f-string rendering of a numeric value.  Injective by construction, as distinct
Python floats also render distinctly. -/
def qstr (q : ℚ) : String :=
  if q.den = 1 then toString q.num else toString q.num ++ "/" ++ toString q.den

/-- A parsed datetime value, the abstraction of Python datetime objects. -/
structure DateTime where
  year : ℕ
  month : ℕ
  day : ℕ
  hour : ℕ
  minute : ℕ
  second : ℕ
  microsecond : ℕ
deriving DecidableEq, Repr

/-- Zero-padding to two digits, as in Python datetime.isoformat. -/
def pad2 (n : ℕ) : String :=
  if n < 10 then "0" ++ toString n else toString n

/-- Zero-padding to four digits, as in Python datetime.isoformat. -/
def pad4 (n : ℕ) : String :=
  if n < 10 then "000" ++ toString n
  else if n < 100 then "00" ++ toString n
  else if n < 1000 then "0" ++ toString n
  else toString n

/-- Zero-padding to six digits, for the microsecond part of isoformat. -/
def pad6 (n : ℕ) : String :=
  if n < 10 then "00000" ++ toString n
  else if n < 100 then "0000" ++ toString n
  else if n < 1000 then "000" ++ toString n
  else if n < 10000 then "00" ++ toString n
  else if n < 100000 then "0" ++ toString n
  else toString n

/-- datetime.isoformat(): YYYY-MM-DDTHH:MM:SS, with a .ffffff part only when
the microsecond field is nonzero. -/
def DateTime.isoformat (d : DateTime) : String :=
  pad4 d.year ++ "-" ++ pad2 d.month ++ "-" ++ pad2 d.day ++ "T" ++
    pad2 d.hour ++ ":" ++ pad2 d.minute ++ ":" ++ pad2 d.second ++
    (if d.microsecond = 0 then "" else "." ++ pad6 d.microsecond)

/-- Python round() to the nearest integer on an exact value: round half to
even (banker's rounding). -/
def roundHalfEven (q : ℚ) : ℤ :=
  if q - (⌊q⌋ : ℚ) < 1/2 then ⌊q⌋
  else if 1/2 < q - (⌊q⌋ : ℚ) then ⌊q⌋ + 1
  else if ⌊q⌋ % 2 = 0 then ⌊q⌋ else ⌊q⌋ + 1

/-- round(x, 2) of src/consensus/proof_of_astronomy.py line 41. -/
def round2 (q : ℚ) : ℚ := (roundHalfEven (q * 100) : ℚ) / 100

/-- round(x, 4) of src/consensus/proof_of_astronomy.py line 48. -/
def round4 (q : ℚ) : ℚ := (roundHalfEven (q * 10000) : ℚ) / 10000

/-- The astronomical snapshot mapping of §6 of the spec, as consumed by
ProofOfAstronomy.calculate_astronomical_consensus and Block.__init__.
timestamp = "" models an absent or empty "timestamp" key (Python
astronomical_data.get("timestamp", "") followed by a truthiness test);
iss / solar = none model the absence of that key under "sources";
astronomical_hash = "" models an absent "astronomical_hash" key
(astronomical_data.get("astronomical_hash", "")). -/
structure Snapshot where
  timestamp : String
  iss : Option (ℚ × ℚ)
  solar : Option ℚ
  astronomical_hash : String
deriving DecidableEq, Repr

/-- The Transaction class of src/core/blockchain.py lines 8-32.  dataRepr
stands for json.dumps(self.data, sort_keys=True), the canonical serialization
of the auxiliary data mapping. -/
structure Transaction where
  from_address : String
  to_address : String
  amount : ℚ
  timestamp : String
  dataRepr : String
  tx_hash : String
deriving DecidableEq, Repr

/-- Transaction.calculate_hash, lines 19-22: hash of
f"{from_address}{to_address}{amount}{timestamp}{json.dumps(data, sort_keys=True)}". -/
def Transaction.calculate_hash (H : String → String) (t : Transaction) : String :=
  H (t.from_address ++ t.to_address ++ qstr t.amount ++ t.timestamp ++ t.dataRepr)

/-- Transaction.__init__, lines 11-17: the constructor stores its arguments,
takes the construction-time timestamp (passed explicitly here), and computes
tx_hash from the stored fields. -/
def mkTransaction (H : String → String) (fa ta : String) (amount : ℚ)
    (ts dataRepr : String) : Transaction :=
  let t0 : Transaction :=
    { from_address := fa, to_address := ta, amount := amount,
      timestamp := ts, dataRepr := dataRepr, tx_hash := "" }
  { t0 with tx_hash := Transaction.calculate_hash H t0 }

/-- One pass of the inner for-loop of Block.calculate_merkle_root,
lines 59-62: hash adjacent pairs of an even-length list. -/
def pairHash (H : String → String) : List String → List String
  | a :: b :: rest => H (a ++ b) :: pairHash H rest
  | l => l

/-- Lines 56-57 of Block.calculate_merkle_root: when the count is odd,
duplicate the last element. -/
def dupIfOdd (hs : List String) : List String :=
  if hs.length % 2 = 1 then hs ++ [hs.getLastD ""] else hs

theorem pairHash_length (H : String → String) (l : List String) :
    (pairHash H l).length = (l.length + 1) / 2 := by
  match l with
  | [] => simp [pairHash]
  | [a] => simp [pairHash]
  | a :: b :: rest =>
    simp only [pairHash, List.length_cons, pairHash_length H rest]
    omega

theorem dupIfOdd_length (hs : List String) :
    (dupIfOdd hs).length =
      if hs.length % 2 = 1 then hs.length + 1 else hs.length := by
  unfold dupIfOdd
  split <;> simp [*]

/-- The while-loop of Block.calculate_merkle_root, lines 55-64: while more
than one hash remains, even the list out and hash adjacent pairs. -/
def merkleLoop (H : String → String) (hs : List String) : List String :=
  if h : 1 < hs.length then
    merkleLoop H (pairHash H (dupIfOdd hs))
  else hs
termination_by hs.length
decreasing_by
  rw [pairHash_length, dupIfOdd_length]
  by_cases hp : hs.length % 2 = 1 <;> simp only [hp, if_true, if_false] <;> omega

/-- Block.calculate_merkle_root, lines 48-66, as a function of the
transaction list: hash of the empty string for no transactions, otherwise the
single survivor of the pairwise folding loop over the stored tx_hash values. -/
def calculate_merkle_root (H : String → String) (txs : List Transaction) : String :=
  if txs.isEmpty then H ""
  else (merkleLoop H (txs.map Transaction.tx_hash)).headD ""

/-- The Block class of src/core/blockchain.py lines 34-84. -/
structure Block where
  index : ℕ
  timestamp : String
  transactions : List Transaction
  previous_hash : String
  astronomical_data : Snapshot
  astronomical_hash : String
  merkle_root : String
  nonce : ℕ
  hash : String
deriving DecidableEq, Repr

/-- Block.calculate_hash, lines 68-71: hash of
f"{index}{timestamp}{previous_hash}{merkle_root}{astronomical_hash}{nonce}".
Note that it reads the STORED merkle_root attribute; the transactions
themselves do not enter this string. -/
def Block.calculate_hash (H : String → String) (b : Block) : String :=
  H (toString b.index ++ b.timestamp ++ b.previous_hash ++ b.merkle_root ++
      b.astronomical_hash ++ toString b.nonce)

/-- Block.__init__, lines 37-46: store the arguments, extract
astronomical_hash from the snapshot, compute the Merkle root, set nonce to 0,
and compute the block hash last. -/
def mkBlock (H : String → String) (index : ℕ) (txs : List Transaction)
    (previous_hash : String) (ad : Snapshot) (ts : String) : Block :=
  let b0 : Block :=
    { index := index, timestamp := ts, transactions := txs,
      previous_hash := previous_hash, astronomical_data := ad,
      astronomical_hash := ad.astronomical_hash,
      merkle_root := calculate_merkle_root H txs, nonce := 0, hash := "" }
  { b0 with hash := Block.calculate_hash H b0 }

/-- The AstroBlockchain class state, lines 86-91: the chain and the pending
pool. -/
structure AstroBlockchain where
  chain : List Block
  pending_transactions : List Transaction
deriving DecidableEq, Repr

/-- The genesis astronomical data of create_genesis_block, lines 96-99: only
the fixed all-zero astronomical_hash matters to the model. -/
def genesisSnapshot : Snapshot :=
  { timestamp := "", iss := none, solar := none,
    astronomical_hash :=
      "0000000000000000000000000000000000000000000000000000000000000000" }

/-- AstroBlockchain.__init__ together with create_genesis_block,
lines 89-101: an empty pool and a chain holding exactly
Block(0, [], "0", genesis_astronomical_data).  The genesis block's
construction-time timestamp is passed explicitly. -/
def newBlockchain (H : String → String) (ts : String) : AstroBlockchain :=
  { chain := [mkBlock H 0 [] "0" genesisSnapshot ts],
    pending_transactions := [] }

/-- A default block, used only to give chain[-1] a total meaning; every
reachable chain is nonempty so the default is never consulted there. -/
def blockDefault : Block :=
  { index := 0, timestamp := "", transactions := [], previous_hash := "",
    astronomical_data := genesisSnapshot, astronomical_hash := "",
    merkle_root := "", nonce := 0, hash := "" }

/-- AstroBlockchain.get_latest_block, lines 103-105: self.chain[-1]. -/
def get_latest_block (b : AstroBlockchain) : Block :=
  b.chain.getLastD blockDefault

/-- AstroBlockchain.add_transaction, lines 107-109: append to the pending
pool. -/
def add_transaction (b : AstroBlockchain) (tx : Transaction) : AstroBlockchain :=
  { b with pending_transactions := b.pending_transactions ++ [tx] }

/-- AstroBlockchain.create_block, lines 111-126: index = len(chain),
previous_hash = latest().hash, take all pending transactions, clear the pool,
construct the block, append it, return it. -/
def create_block (H : String → String) (b : AstroBlockchain) (ad : Snapshot)
    (ts : String) : AstroBlockchain × Block :=
  let index := b.chain.length
  let previous_hash := (get_latest_block b).hash
  let txs := b.pending_transactions
  let nb := mkBlock H index txs previous_hash ad ts
  ({ chain := b.chain ++ [nb], pending_transactions := [] }, nb)

/-- The loop of AstroBlockchain.is_chain_valid, lines 130-142, phrased on
adjacent pairs: for every i ≥ 1 check chain[i].hash == chain[i].calculate_hash()
and chain[i].previous_hash == chain[i-1].hash. -/
def chainValidFrom (H : String → String) : List Block → Bool
  | b1 :: b2 :: rest =>
      (b2.hash == Block.calculate_hash H b2) &&
        (b2.previous_hash == b1.hash) && chainValidFrom H (b2 :: rest)
  | _ => true

/-- AstroBlockchain.is_chain_valid, lines 128-142. -/
def is_chain_valid (H : String → String) (b : AstroBlockchain) : Bool :=
  chainValidFrom H b.chain

/-- The per-transaction contribution to a balance in
AstroBlockchain.get_balance, lines 150-153. -/
def txDelta (addr : String) (t : Transaction) : ℚ :=
  (if t.from_address = addr then -t.amount else 0) +
    (if t.to_address = addr then t.amount else 0)

/-- AstroBlockchain.get_balance, lines 144-155: scan every block of the chain
(the pending pool is not consulted) and accumulate the per-transaction
deltas. -/
def get_balance (addr : String) (b : AstroBlockchain) : ℚ :=
  (b.chain.map (fun bl => (bl.transactions.map (txDelta addr)).sum)).sum

/-- The states reachable from a fresh AstroBlockchain by any sequence of
add_transaction and create_block calls, with blocks left untouched. -/
inductive Reachable (H : String → String) : AstroBlockchain → Prop
  | genesis (ts : String) : Reachable H (newBlockchain H ts)
  | add (b : AstroBlockchain) (tx : Transaction) :
      Reachable H b → Reachable H (add_transaction b tx)
  | create (b : AstroBlockchain) (ad : Snapshot) (ts : String) :
      Reachable H b → Reachable H (create_block H b ad ts).1

/-- The ProofOfAstronomy state of src/consensus/proof_of_astronomy.py
lines 12-16: the block interval (in minutes), the difficulty target set to
"0000" by __init__, and the node identity.  node_id is derived in Python from
the wall clock at construction; it is passed explicitly here. -/
structure ProofOfAstronomy where
  block_interval_minutes : ℕ
  difficulty_target : String
  node_id : String
deriving DecidableEq, Repr

/-- ProofOfAstronomy.__init__, lines 12-16, with the wall-clock-derived
node_id given explicitly. -/
def mkProofOfAstronomy (interval : ℕ) (node_id : String) : ProofOfAstronomy :=
  { block_interval_minutes := interval, difficulty_target := "0000",
    node_id := node_id }

/-- ProofOfAstronomy.is_time_for_new_block, lines 18-28.  P models
datetime.fromisoformat (none = ValueError, caught by the except branch);
egE last models (datetime.utcnow() - last) >= self.block_interval, the
comparison against the ambient wall clock. -/
def is_time_for_new_block (P : String → Option DateTime)
    (egE : DateTime → Bool) (last_block_timestamp : String) : Bool :=
  if last_block_timestamp = "" then true
  else
    match P ((last_block_timestamp.replace "Z" "+00:00").replace "+00:00" "") with
    | some last => egE last
    | none => true

/-- Lines 57-58 of calculate_astronomical_consensus:
dt.replace(minute=(dt.minute // 10) * 10, second=0, microsecond=0). -/
def timeBucket (d : DateTime) : DateTime :=
  { d with minute := d.minute / 10 * 10, second := 0, microsecond := 0 }

/-- Lines 38-43 of calculate_astronomical_consensus: the optional ISS
component, with latitude and longitude rounded to 2 decimal places. -/
def issComponent (ad : Snapshot) : List String :=
  match ad.iss with
  | some (lat, lon) =>
      ["iss_" ++ qstr (round2 lat) ++ "_" ++ qstr (round2 lon)]
  | none => []

/-- Lines 46-49 of calculate_astronomical_consensus: the optional solar
component, with the flux rounded to 4 decimal places. -/
def solarComponent (ad : Snapshot) : List String :=
  match ad.solar with
  | some flux => ["solar_" ++ qstr (round4 flux)]
  | none => []

/-- Lines 52-61 of calculate_astronomical_consensus: the time component.
Empty timestamp: no component.  Parseable timestamp (after stripping "Z"):
the 10-minute-bucketed isoformat.  Unparseable timestamp (the except branch):
the raw timestamp text itself. -/
def timeComponent (P : String → Option DateTime) (ad : Snapshot) : List String :=
  if ad.timestamp = "" then []
  else
    match P (ad.timestamp.replace "Z" "") with
    | some dt => ["time_" ++ (timeBucket dt).isoformat]
    | none => ["time_" ++ ad.timestamp]

/-- ProofOfAstronomy.calculate_astronomical_consensus, lines 30-69: build the
component list [iss?, solar?, time?] in order, join with "_", and hash.
P models datetime.fromisoformat; its none result is the except branch of
lines 60-61. -/
def calculate_astronomical_consensus (H : String → String)
    (P : String → Option DateTime) (ad : Snapshot) : String :=
  H (String.intercalate "_"
      (issComponent ad ++ solarComponent ad ++ timeComponent P ad))

/-- Python str.startswith(p), modelled on the underlying character
sequence: the first len(p) characters of s equal p. -/
def strStartsWith (s p : String) : Bool :=
  s.data.take p.data.length == p.data

/-- ProofOfAstronomy.can_create_block, lines 71-80: hash
f"{consensus_hash}_{node_id}" and test the difficulty-target prefix. -/
def can_create_block (H : String → String) (g : ProofOfAstronomy)
    (consensus_hash node_id : String) : Bool :=
  strStartsWith (H (consensus_hash ++ "_" ++ node_id)) g.difficulty_target

/-- The per-candidate admission test of find_valid_nonce, lines 88-90: hash
f"{consensus_hash}_{node_id}_{nonce}" and test the difficulty-target
prefix. -/
def nonceCheck (H : String → String) (g : ProofOfAstronomy)
    (consensus_hash : String) (nonce : ℕ) : Bool :=
  strStartsWith (H (consensus_hash ++ "_" ++ g.node_id ++ "_" ++ toString nonce))
    g.difficulty_target

/-- The for-loop of find_valid_nonce, scanning fuel many candidates starting
at start. -/
def findNonceFrom (H : String → String) (g : ProofOfAstronomy)
    (consensus_hash : String) : ℕ → ℕ → Option ℕ
  | _, 0 => none
  | start, fuel + 1 =>
      if nonceCheck H g consensus_hash start then some start
      else findNonceFrom H g consensus_hash (start + 1) fuel

/-- ProofOfAstronomy.find_valid_nonce, lines 82-93: scan nonces
0, 1, ..., max_attempts - 1 and return the first admitting one, or None. -/
def find_valid_nonce (H : String → String) (g : ProofOfAstronomy)
    (consensus_hash : String) (max_attempts : ℕ) : Option ℕ :=
  findNonceFrom H g consensus_hash 0 max_attempts

/-- The serialized block form of Block.to_dict, lines 73-84: it carries both
the anchored snapshot under "astronomical_data" and, separately, the block's
stored top-level "astronomical_hash" field.  astronomical_data = none models
the absence of the "astronomical_data" key in an arbitrary mapping handed to
validate_astronomical_block. -/
structure BlockData where
  index : ℕ
  timestamp : String
  previous_hash : String
  transactions : List Transaction
  astronomical_data : Option Snapshot
  astronomical_hash : String
  merkle_root : String
  nonce : ℕ
  hash : String
deriving DecidableEq, Repr

/-- Block.to_dict, lines 73-84: the pure projection of a block into its
serialized form, nesting the snapshot and copying the stored top-level
astronomical_hash. -/
def Block.to_dict (b : Block) : BlockData :=
  { index := b.index, timestamp := b.timestamp,
    previous_hash := b.previous_hash, transactions := b.transactions,
    astronomical_data := some b.astronomical_data,
    astronomical_hash := b.astronomical_hash,
    merkle_root := b.merkle_root, nonce := b.nonce, hash := b.hash }

/-- ProofOfAstronomy.validate_astronomical_block, lines 95-118: false when
"astronomical_data" is absent, otherwise recompute the consensus hash from
the snapshot and compare with the hash claimed INSIDE the snapshot
(astronomical_data.get("astronomical_hash", "")).  The serialized block's
top-level astronomical_hash field is never read. -/
def validate_astronomical_block (H : String → String)
    (P : String → Option DateTime) (bd : BlockData) : Bool :=
  match bd.astronomical_data with
  | none => false
  | some ad => calculate_astronomical_consensus H P ad == ad.astronomical_hash

/-- A concrete transaction used by the concrete evaluations below. -/
def txW : Transaction := mkTransaction id "alice" "bob" 50 "t1" "d1"

/-- A second concrete transaction used by the concrete evaluations below. -/
def txW2 : Transaction := mkTransaction id "bob" "charlie" 25 "t2" "d2"

/-- A concrete reachable ledger: genesis, one pending transaction, one
created block. -/
def chainW : AstroBlockchain :=
  (create_block id (add_transaction (newBlockchain id "g") txW)
    ⟨"", none, none, "a"⟩ "b1").1

/-- chainW after a post-hoc in-place mutation of the stored transaction's
amount (50 → 9999), with every stored hash, Merkle root and link left
untouched, as in the tampering scenario of the spec. -/
def chainWTampered : AstroBlockchain :=
  { chainW with
    chain := chainW.chain.map (fun bl =>
      { bl with transactions :=
          bl.transactions.map (fun t => { t with amount := 9999 }) }) }

/-- A concrete consensus gate whose difficulty target is the one-character
string "c", for concrete nonce-search evaluations. -/
def gateW : ProofOfAstronomy :=
  { block_interval_minutes := 10, difficulty_target := "c", node_id := "n" }

/-- A concrete honestly created block for the fingerprint-edit scenario: it
is anchored to a snapshot whose embedded fingerprint equals the recomputed
consensus (the empty component list hashes, under H = id, to ""). -/
def blockW : Block := mkBlock id 2 [] "p" ⟨"", none, none, ""⟩ "t"

/-- The serialized form of blockW, as produced by Block.to_dict. -/
def blockWDict : BlockData := blockW.to_dict

/-- blockWDict after hand-editing the block's stored top-level
astronomical_hash — the fingerprint the block claims to carry — while
leaving the anchored snapshot untouched: the tampering scenario of the
claim. -/
def blockWDictEdited : BlockData :=
  { blockWDict with astronomical_hash := "deadbeef" }

section Lemmas

/-- getLastD of a nonempty list coincides with getLast. -/
theorem getLastD_eq_getLast {α : Type} :
    (l : List α) → (h : l ≠ []) → (d : α) → l.getLastD d = l.getLast h
  | [], h, _ => absurd rfl h
  | [_], _, _ => rfl
  | a :: b :: r, _, d => by
    rw [List.getLastD_cons, List.getLast_cons (List.cons_ne_nil b r),
      ← getLastD_eq_getLast (b :: r) (List.cons_ne_nil b r) d,
      List.getLastD_cons, List.getLastD_cons]

/-- The stored hash of a freshly constructed block is its recomputed hash. -/
theorem mkBlock_hash (H : String → String) (index : ℕ) (txs : List Transaction)
    (prev : String) (ad : Snapshot) (ts : String) :
    (mkBlock H index txs prev ad ts).hash =
      Block.calculate_hash H (mkBlock H index txs prev ad ts) := rfl

/-- Appending a block whose stored hash is fresh and whose previous_hash is
the last block's hash preserves chain validity. -/
theorem chainValidFrom_append (H : String → String) (l : List Block) (nb : Block)
    (hl : l ≠ []) (hv : chainValidFrom H l = true)
    (h1 : nb.hash = Block.calculate_hash H nb)
    (h2 : nb.previous_hash = (l.getLastD blockDefault).hash) :
    chainValidFrom H (l ++ [nb]) = true := by
  induction l with
  | nil => exact absurd rfl hl
  | cons a rest ih =>
    cases rest with
    | nil =>
      simp only [List.cons_append, List.nil_append, chainValidFrom,
        Bool.and_eq_true, beq_iff_eq]
      exact ⟨⟨h1, by simpa using h2⟩, trivial⟩
    | cons b r =>
      simp only [chainValidFrom, Bool.and_eq_true, beq_iff_eq] at hv
      simp only [List.cons_append, chainValidFrom, Bool.and_eq_true, beq_iff_eq]
      refine ⟨⟨hv.1.1, hv.1.2⟩, ?_⟩
      have := ih (List.cons_ne_nil b r) hv.2 (by simpa using h2)
      simpa using this

/-- Every reachable ledger has a nonempty, valid chain. -/
theorem reachable_invariant (H : String → String) (b : AstroBlockchain)
    (hr : Reachable H b) : b.chain ≠ [] ∧ chainValidFrom H b.chain = true := by
  induction hr with
  | genesis ts => exact ⟨by simp [newBlockchain], rfl⟩
  | add b tx _ ih => exact ih
  | create b ad ts _ ih =>
    refine ⟨by simp [create_block], ?_⟩
    exact chainValidFrom_append H b.chain _ ih.1 ih.2 (mkBlock_hash H _ _ _ _ _) rfl

/-- The sum over a covering address set of one transaction's balance deltas
vanishes: the sender loses what the receiver gains. -/
theorem sum_txDelta_eq_zero (A : Finset String) (t : Transaction)
    (hf : t.from_address ∈ A) (ht : t.to_address ∈ A) :
    ∑ a ∈ A, txDelta a t = 0 := by
  unfold txDelta
  rw [Finset.sum_add_distrib, Finset.sum_ite_eq, Finset.sum_ite_eq]
  simp [hf, ht]

/-- Mutating the stored transactions of every block — by any per-transaction
rewriting — leaves chainValidFrom unchanged, because Block.calculate_hash
reads only the stored merkle_root, never the transactions. -/
theorem chainValidFrom_tx_map (H : String → String) (f : Transaction → Transaction) :
    ∀ l : List Block,
      chainValidFrom H (l.map (fun bl =>
        { bl with transactions := bl.transactions.map f })) =
        chainValidFrom H l
  | [] => rfl
  | [_] => rfl
  | b1 :: b2 :: rest => by
    simp only [List.map_cons, chainValidFrom]
    rw [show chainValidFrom H
        ({ b2 with transactions := b2.transactions.map f } ::
          rest.map (fun bl => { bl with transactions := bl.transactions.map f })) =
        chainValidFrom H ((b2 :: rest).map (fun bl =>
          { bl with transactions := bl.transactions.map f })) from rfl,
      chainValidFrom_tx_map H f (b2 :: rest)]
    rfl

/-- The sum over a covering address set of a transaction list's balance
deltas vanishes. -/
theorem sum_txList_eq_zero (A : Finset String) (txs : List Transaction)
    (h : ∀ t ∈ txs, t.from_address ∈ A ∧ t.to_address ∈ A) :
    ∑ a ∈ A, (txs.map (txDelta a)).sum = 0 := by
  induction txs with
  | nil => simp
  | cons t rest ih =>
    simp only [List.map_cons, List.sum_cons, Finset.sum_add_distrib]
    rw [sum_txDelta_eq_zero A t (h t (List.mem_cons_self t rest)).1
      (h t (List.mem_cons_self t rest)).2,
      ih (fun t' ht' => h t' (List.mem_cons_of_mem t ht'))]
    simp

end Lemmas

/-- C2: computeMerkleRoot returns the hash of the empty string on an empty
transaction list, the single transaction's own stored hash on a singleton
list, and otherwise repeatedly duplicates the last hash when the count is odd
and hashes adjacent pairs until one hash remains. -/
theorem merkle_root_spec (H : String → String) :
    (calculate_merkle_root H [] = H "") ∧
    (∀ t : Transaction, calculate_merkle_root H [t] = t.tx_hash) ∧
    (∀ txs : List Transaction, txs ≠ [] →
      calculate_merkle_root H txs =
        (merkleLoop H (txs.map Transaction.tx_hash)).headD "") ∧
    (∀ hs : List String, 1 < hs.length →
      merkleLoop H hs = merkleLoop H (pairHash H (dupIfOdd hs))) ∧
    (∀ hs : List String, hs.length ≤ 1 → merkleLoop H hs = hs) ∧
    (∀ (a b : String) (rest : List String),
      pairHash H (a :: b :: rest) = H (a ++ b) :: pairHash H rest) ∧
    (∀ hs : List String, hs.length % 2 = 1 →
      dupIfOdd hs = hs ++ [hs.getLastD ""]) ∧
    (∀ hs : List String, hs.length % 2 = 0 → dupIfOdd hs = hs) := by
  refine ⟨rfl, ?_, ?_, ?_, ?_, ?_, ?_, ?_⟩
  · intro t
    show (merkleLoop H [t.tx_hash]).headD "" = t.tx_hash
    rw [merkleLoop]
    simp
  · intro txs hne
    simp [calculate_merkle_root, List.isEmpty_iff, hne]
  · intro hs hlen
    rw [merkleLoop]
    simp [hlen]
  · intro hs hlen
    rw [merkleLoop]
    simp
    omega
  · intro a b rest
    rfl
  · intro hs hodd
    simp [dupIfOdd, hodd]
  · intro hs heven
    simp [dupIfOdd, heven]

/-- Witness for C2: on a concrete singleton list the Merkle root is the
transaction's own stored hash. -/
theorem merkle_root_spec_witness : calculate_merkle_root id [txW] = txW.tx_hash :=
  (merkle_root_spec id).2.1 txW

/-- C3: createBlock gives the new block index = chain length, previousHash =
hash of the previously latest block, moves exactly the pending transactions
in order into the block, empties the pool, and appends the returned block to
the chain. -/
theorem create_block_spec (H : String → String) (b : AstroBlockchain)
    (ad : Snapshot) (ts : String) (hne : b.chain ≠ []) :
    (create_block H b ad ts).2.index = b.chain.length ∧
    (create_block H b ad ts).2.previous_hash = (b.chain.getLast hne).hash ∧
    (create_block H b ad ts).2.transactions = b.pending_transactions ∧
    (create_block H b ad ts).1.pending_transactions = [] ∧
    (create_block H b ad ts).1.chain = b.chain ++ [(create_block H b ad ts).2] := by
  refine ⟨rfl, ?_, rfl, rfl, rfl⟩
  show (get_latest_block b).hash = (b.chain.getLast hne).hash
  rw [get_latest_block, getLastD_eq_getLast b.chain hne blockDefault]

/-- Witness for C3: evaluated on the concrete single-block ledger. -/
theorem create_block_spec_witness :
    (create_block id (newBlockchain id "g") genesisSnapshot "b").2.index = 1 ∧
    (create_block id (newBlockchain id "g") genesisSnapshot "b").1.pending_transactions = [] := by
  have h := create_block_spec id (newBlockchain id "g") genesisSnapshot "b"
    (by simp [newBlockchain])
  exact ⟨h.1, h.2.2.2.1⟩

/-- C5: canCreateBlock is true exactly when the hex digest of the hash of
the fingerprint joined to the identity by "_" starts with the configured
difficulty target, and its result depends on nothing but the difficulty
target and its two arguments (purity/determinism). -/
theorem can_create_block_spec (H : String → String) (g g' : ProofOfAstronomy)
    (c n : String) (hdt : g.difficulty_target = g'.difficulty_target) :
    (can_create_block H g c n = true ↔
      strStartsWith (H (c ++ "_" ++ n)) g.difficulty_target = true) ∧
    can_create_block H g c n = can_create_block H g' c n := by
  constructor
  · exact Iff.rfl
  · unfold can_create_block
    rw [hdt]

/-- Witness for C5: a concrete admission test evaluates positively. -/
theorem can_create_block_spec_witness :
    can_create_block id gateW "c" "n" = true :=
  ((can_create_block_spec id gateW gateW "c" "n" rfl).1).mpr (by decide)

/-- The nonce scan starting at start with the given fuel finds exactly the
least admitting candidate in [start, start + fuel), and none when no
candidate in that window is admitting. -/
theorem findNonceFrom_spec (H : String → String) (g : ProofOfAstronomy)
    (c : String) :
    ∀ (fuel start : ℕ),
      (∀ n, findNonceFrom H g c start fuel = some n →
        start ≤ n ∧ n < start + fuel ∧ nonceCheck H g c n = true ∧
          ∀ m, start ≤ m → m < n → nonceCheck H g c m = false) ∧
      (findNonceFrom H g c start fuel = none →
        ∀ n, start ≤ n → n < start + fuel → nonceCheck H g c n = false) := by
  intro fuel
  induction fuel with
  | zero =>
    intro start
    constructor
    · intro n hn
      simp [findNonceFrom] at hn
    · intro _ n h1 h2
      omega
  | succ f ih =>
    intro start
    constructor
    · intro n hn
      rw [findNonceFrom] at hn
      by_cases hc : nonceCheck H g c start = true
      · simp only [hc, if_true] at hn
        cases hn
        exact ⟨le_refl _, by omega, hc, fun m h1 h2 => absurd h1 (by omega)⟩
      · simp only [hc, if_false] at hn
        obtain ⟨h1, h2, h3, h4⟩ := (ih (start + 1)).1 n hn
        refine ⟨by omega, by omega, h3, ?_⟩
        intro m hm1 hm2
        rcases Nat.eq_or_lt_of_le hm1 with heq | hlt
        · rw [← heq]
          exact Bool.not_eq_true _ ▸ (by simpa using hc)
        · exact h4 m (by omega) hm2
    · intro hn n h1 h2
      rw [findNonceFrom] at hn
      by_cases hc : nonceCheck H g c start = true
      · simp [hc] at hn
      · simp only [hc, if_false] at hn
        rcases Nat.eq_or_lt_of_le h1 with heq | hlt
        · rw [← heq]
          simpa using hc
        · exact (ih (start + 1)).2 hn n (by omega) (by omega)

/-- C6: findValidNonce returns the smallest admitting nonce below
maxAttempts when one exists, and the explicit None outcome when the bound is
exhausted; it never reports a nonce at or beyond the bound. -/
theorem find_valid_nonce_spec (H : String → String) (g : ProofOfAstronomy)
    (c : String) (max_attempts : ℕ) :
    (∀ n, find_valid_nonce H g c max_attempts = some n →
      n < max_attempts ∧ nonceCheck H g c n = true ∧
        ∀ m, m < n → nonceCheck H g c m = false) ∧
    (find_valid_nonce H g c max_attempts = none →
      ∀ n, n < max_attempts → nonceCheck H g c n = false) := by
  constructor
  · intro n hn
    obtain ⟨_, h2, h3, h4⟩ := (findNonceFrom_spec H g c max_attempts 0).1 n hn
    exact ⟨by omega, h3, fun m hm => h4 m (Nat.zero_le m) hm⟩
  · intro hn n h
    exact (findNonceFrom_spec H g c max_attempts 0).2 hn n (Nat.zero_le n) (by omega)

/-- Witness for C6: a concrete search finds nonce 0, which is admitting and
below the bound. -/
theorem find_valid_nonce_spec_witness :
    find_valid_nonce id gateW "c" 5 = some 0 ∧ 0 < 5 ∧
      nonceCheck id gateW "c" 0 = true := by
  have h := (find_valid_nonce_spec id gateW "c" 5).1 0 (by decide)
  exact ⟨by decide, h.1, h.2.1⟩

/-- C10: balanceOf reads only the chain: adding a pending transaction leaves
every balance unchanged, and any two ledger states with the same chain give
every address the same balance. -/
theorem get_balance_chain_only :
    (∀ (b : AstroBlockchain) (tx : Transaction) (a : String),
      get_balance a (add_transaction b tx) = get_balance a b) ∧
    (∀ (b1 b2 : AstroBlockchain) (a : String), b1.chain = b2.chain →
      get_balance a b1 = get_balance a b2) := by
  constructor
  · intro b tx a
    rfl
  · intro b1 b2 a h
    unfold get_balance
    rw [h]

/-- Witness for C10: on the concrete ledger, adding a pending transaction
leaves the sender's balance unchanged. -/
theorem get_balance_chain_only_witness :
    get_balance "alice" (add_transaction chainW txW2) = get_balance "alice" chainW :=
  get_balance_chain_only.1 chainW txW2 "alice"

/-- C4: when every transaction stored in the chain's blocks names its sender
and receiver inside the address set A, the balances of the distinct addresses
of A sum to zero (closed-system conservation). -/
theorem balance_conservation (A : Finset String) (b : AstroBlockchain)
    (h : ∀ bl ∈ b.chain, ∀ t ∈ bl.transactions,
      t.from_address ∈ A ∧ t.to_address ∈ A) :
    ∑ a ∈ A, get_balance a b = 0 := by
  unfold get_balance
  have main : ∀ l : List Block,
      (∀ bl ∈ l, ∀ t ∈ bl.transactions, t.from_address ∈ A ∧ t.to_address ∈ A) →
      ∑ a ∈ A, (l.map (fun bl => (bl.transactions.map (txDelta a)).sum)).sum = 0 := by
    intro l
    induction l with
    | nil => simp
    | cons bl rest ih =>
      intro hl
      simp only [List.map_cons, List.sum_cons, Finset.sum_add_distrib]
      rw [sum_txList_eq_zero A bl.transactions
        (fun t ht => hl bl (List.mem_cons_self bl rest) t ht),
        ih (fun bl' hbl' t ht => hl bl' (List.mem_cons_of_mem bl hbl') t ht)]
      simp
  exact main b.chain h

/-- Witness for C4: on the concrete two-block ledger whose only transaction
moves 50 from alice to bob, the balances over the address set containing
alice and bob sum to zero. -/
theorem balance_conservation_witness :
    ∑ a ∈ ({"alice", "bob"} : Finset String), get_balance a chainW = 0 := by
  apply balance_conservation
  intro bl hbl t ht
  have hbl' : bl ∈ chainW.chain := hbl
  rw [show chainW.chain =
    [(newBlockchain id "g").chain.headD blockDefault,
      (create_block id (add_transaction (newBlockchain id "g") txW)
        ⟨"", none, none, "a"⟩ "b1").2] from rfl] at hbl'
  rcases List.mem_cons.mp hbl' with heq | hbl2
  · rw [heq] at ht
    simp [newBlockchain, mkBlock] at ht
  · rcases List.mem_cons.mp hbl2 with heq | habs
    · rw [heq] at ht
      have : t = txW := by
        simpa [create_block, mkBlock, add_transaction, newBlockchain] using ht
      rw [this]
      constructor <;> simp [txW, mkTransaction]
    · simp at habs

/-- C7: validateBlock does return false, never raising, when the anchored
snapshot is absent — but, contrary to the claim's tamper scenario, it never
reads the serialized block's stored top-level astronomical_hash: its verdict
is invariant under arbitrary edits of that stored fingerprint, and on the
concrete honestly created block blockW the form whose stored fingerprint was
hand-edited to "deadbeef" (snapshot untouched) still validates true, where
the claim requires false. -/
theorem validate_block_fingerprint_ignored :
    (∀ (H : String → String) (P : String → Option DateTime) (bd : BlockData),
      bd.astronomical_data = none → validate_astronomical_block H P bd = false) ∧
    (∀ (H : String → String) (P : String → Option DateTime) (bd : BlockData)
      (h' : String),
      validate_astronomical_block H P { bd with astronomical_hash := h' } =
        validate_astronomical_block H P bd) ∧
    blockWDictEdited.astronomical_data = blockWDict.astronomical_data ∧
    blockWDictEdited.astronomical_hash ≠ blockWDict.astronomical_hash ∧
    validate_astronomical_block id (fun _ => none) blockWDict = true ∧
    validate_astronomical_block id (fun _ => none) blockWDictEdited = true := by
  refine ⟨?_, ?_, rfl, by decide, rfl, rfl⟩
  · intro H P bd h
    simp [validate_astronomical_block, h]
  · intro H P bd h'
    rfl

/-- Witness for C7: the absent-snapshot half evaluated on the concrete
serialized form stripped of its snapshot. -/
theorem validate_block_fingerprint_ignored_witness :
    validate_astronomical_block id (fun _ => none)
      { blockWDict with astronomical_data := none } = false :=
  validate_block_fingerprint_ignored.1 id (fun _ => none)
    { blockWDict with astronomical_data := none } rfl

/-- C9 counterexample: on the unparseable timestamp "garbage" the fingerprint
is the hash of "time_garbage" — the raw timestamp text is kept as the time
component — and not the hash of the empty component list that omitting the
component would produce. -/
theorem time_component_kept_counterexample :
    calculate_astronomical_consensus id (fun _ => none)
      ⟨"garbage", none, none, ""⟩ = id "time_garbage" ∧
    id "time_garbage" ≠ id "" := by
  constructor
  · rfl
  · decide

/-- C9 amended: isTimeForNewBlock fails open — true on an empty timestamp and
on any timestamp the parser rejects — and deriveFingerprint recovers locally
from an unparseable timestamp by using the raw timestamp text as the time
component (rather than omitting the component), never propagating a
failure. -/
theorem malformed_timestamp_handling (P : String → Option DateTime)
    (egE : DateTime → Bool) (H : String → String) (ad : Snapshot) (ts : String) :
    (is_time_for_new_block P egE "" = true) ∧
    (P ((ts.replace "Z" "+00:00").replace "+00:00" "") = none →
      is_time_for_new_block P egE ts = true) ∧
    (ad.timestamp ≠ "" → P (ad.timestamp.replace "Z" "") = none →
      calculate_astronomical_consensus H P ad =
        H (String.intercalate "_"
          (issComponent ad ++ solarComponent ad ++ ["time_" ++ ad.timestamp]))) := by
  refine ⟨rfl, ?_, ?_⟩
  · intro h
    unfold is_time_for_new_block
    by_cases hts : ts = ""
    · simp [hts]
    · simp [hts, h]
  · intro h1 h2
    unfold calculate_astronomical_consensus timeComponent
    rw [if_neg h1, h2]

/-- Witness for C9: the time gate accepts a concrete unparseable timestamp. -/
theorem malformed_timestamp_handling_witness :
    is_time_for_new_block (fun _ => none) (fun _ => false) "garbage" = true :=
  (malformed_timestamp_handling (fun _ => none) (fun _ => false) id
    ⟨"", none, none, ""⟩ "garbage").2.1 rfl

/-- Banker's rounding sends an integer perturbed by strictly less than one
half back to that integer. -/
theorem roundHalfEven_int_add (k : ℤ) (δ : ℚ) (h : |δ| < 1/2) :
    roundHalfEven ((k : ℚ) + δ) = k := by
  rw [abs_lt] at h
  unfold roundHalfEven
  rcases le_or_lt 0 δ with hd | hd
  · have hf : ⌊(k : ℚ) + δ⌋ = k := by
      rw [Int.floor_eq_iff]
      constructor
      · linarith
      · push_cast
        linarith [h.2]
    rw [hf]
    have h1 : (k : ℚ) + δ - k = δ := by ring
    rw [h1, if_pos h.2]
  · have hf : ⌊(k : ℚ) + δ⌋ = k - 1 := by
      rw [Int.floor_eq_iff]
      push_cast
      constructor
      · linarith [h.1]
      · linarith
    rw [hf]
    have h1 : (k : ℚ) + δ - (k - 1 : ℤ) = δ + 1 := by push_cast; ring
    rw [h1, if_neg (by linarith [h.1]), if_pos (by linarith [h.1])]
    omega

/-- Rounding to 2 decimal places absorbs perturbations strictly below 0.005
around a grid point k/100. -/
theorem round2_grid (k : ℤ) (ε : ℚ) (h : |ε| < 1/200) :
    round2 ((k : ℚ)/100 + ε) = (k : ℚ)/100 := by
  unfold round2
  have h1 : ((k : ℚ)/100 + ε) * 100 = (k : ℚ) + ε * 100 := by ring
  have h2 : |ε * 100| < 1/2 := by
    rw [abs_mul]
    have : |(100 : ℚ)| = 100 := by norm_num
    rw [this]
    linarith [abs_nonneg ε]
  rw [h1, roundHalfEven_int_add k (ε * 100) h2]

/-- Rounding to 4 decimal places absorbs perturbations strictly below
0.00005 around a grid point k/10000. -/
theorem round4_grid (k : ℤ) (ε : ℚ) (h : |ε| < 1/20000) :
    round4 ((k : ℚ)/10000 + ε) = (k : ℚ)/10000 := by
  unfold round4
  have h1 : ((k : ℚ)/10000 + ε) * 10000 = (k : ℚ) + ε * 10000 := by ring
  have h2 : |ε * 10000| < 1/2 := by
    rw [abs_mul]
    have : |(10000 : ℚ)| = 10000 := by norm_num
    rw [this]
    linarith [abs_nonneg ε]
  rw [h1, roundHalfEven_int_add k (ε * 10000) h2]

/-- C8 counterexample: latitudes 0.004 and 0.008 differ by 0.004 < 0.005 yet
round to different 2-decimal values, so the fingerprints differ — the claim
fails for off-grid readings. -/
theorem fingerprint_rounding_counterexample :
    |(1 : ℚ)/125 - 1/250| < 1/200 ∧
    calculate_astronomical_consensus id (fun _ => none)
        ⟨"", some (1/250, 0), none, ""⟩ ≠
      calculate_astronomical_consensus id (fun _ => none)
        ⟨"", some (1/125, 0), none, ""⟩ := by
  have r0 : round2 (0 : ℚ) = 0 := by
    unfold round2
    rw [show (0 : ℚ) * 100 = ((0 : ℤ) : ℚ) + 0 by norm_num,
      roundHalfEven_int_add 0 0 (by simp)]
    norm_num
  have r1 : round2 ((1 : ℚ)/250) = 0 := by
    unfold round2
    rw [show (1/250 : ℚ) * 100 = ((0 : ℤ) : ℚ) + 2/5 by norm_num,
      roundHalfEven_int_add 0 (2/5)
        (by rw [abs_of_nonneg (by norm_num : (0:ℚ) ≤ 2/5)]; norm_num)]
    norm_num
  have r2 : round2 ((1 : ℚ)/125) = Rat.mk' 1 100 (by norm_num) (Nat.coprime_one_left 100) := by
    rw [show (Rat.mk' 1 100 (by norm_num) (Nat.coprime_one_left 100) : ℚ) = 1/100 by
      rw [Rat.mk'_eq_divInt, Rat.divInt_eq_div]; norm_num]
    unfold round2
    rw [show (1/125 : ℚ) * 100 = ((1 : ℤ) : ℚ) + (-(1/5)) by norm_num,
      roundHalfEven_int_add 1 (-(1/5))
        (by rw [abs_neg, abs_of_nonneg (by norm_num : (0:ℚ) ≤ 1/5)]; norm_num)]
    norm_num
  constructor
  · rw [show (1 : ℚ)/125 - 1/250 = 1/250 by norm_num,
      abs_of_nonneg (by norm_num : (0:ℚ) ≤ 1/250)]
    norm_num
  · have e1 : calculate_astronomical_consensus id (fun _ => none)
        ⟨"", some (1/250, 0), none, ""⟩ =
        id (String.intercalate "_"
          ["iss_" ++ qstr (round2 ((1 : ℚ)/250)) ++ "_" ++ qstr (round2 (0 : ℚ))]) := rfl
    have e2 : calculate_astronomical_consensus id (fun _ => none)
        ⟨"", some (1/125, 0), none, ""⟩ =
        id (String.intercalate "_"
          ["iss_" ++ qstr (round2 ((1 : ℚ)/125)) ++ "_" ++ qstr (round2 (0 : ℚ))]) := rfl
    rw [e1, e2, r0, r1, r2]
    decide

/-- C8 amended: deriveFingerprint is unchanged when each perturbed reading
rounds to the same value as the original — in particular when latitude and
longitude lie on the 0.01-degree grid and are perturbed by strictly less
than 0.005 degrees, the flux lies on the 0.0001 grid and is perturbed by
strictly less than 0.00005 — and when the timestamp is moved to any
parseable instant within the same 10-minute bucket. -/
theorem fingerprint_rounding_invariance (H : String → String)
    (P : String → Option DateTime) (lat lon flux elat elon eflux : ℚ)
    (k1 k2 k3 : ℤ) (t1 t2 ah1 ah2 : String) (d1 d2 : DateTime)
    (hlat : lat = (k1 : ℚ)/100) (helat : |elat| < 1/200)
    (hlon : lon = (k2 : ℚ)/100) (helon : |elon| < 1/200)
    (hflux : flux = (k3 : ℚ)/10000) (heflux : |eflux| < 1/20000)
    (ht1 : t1 ≠ "") (ht2 : t2 ≠ "")
    (hp1 : P (t1.replace "Z" "") = some d1)
    (hp2 : P (t2.replace "Z" "") = some d2)
    (hy : d1.year = d2.year) (hmo : d1.month = d2.month)
    (hd : d1.day = d2.day) (hh : d1.hour = d2.hour)
    (hmin : d1.minute / 10 = d2.minute / 10) :
    calculate_astronomical_consensus H P ⟨t1, some (lat, lon), some flux, ah1⟩ =
      calculate_astronomical_consensus H P
        ⟨t2, some (lat + elat, lon + elon), some (flux + eflux), ah2⟩ := by
  have hbucket : timeBucket d1 = timeBucket d2 := by
    unfold timeBucket
    cases d1 with
    | mk y1 mo1 dd1 hr1 mi1 s1 u1 =>
    cases d2 with
    | mk y2 mo2 dd2 hr2 mi2 s2 u2 =>
    dsimp only at hy hmo hd hh hmin ⊢
    subst hy
    subst hmo
    subst hd
    subst hh
    rw [hmin]
  have hlat2 : round2 (lat + elat) = round2 lat := by
    rw [hlat, round2_grid k1 elat helat]
    have := round2_grid k1 0 (by norm_num)
    rw [add_zero] at this
    rw [this]
  have hlon2 : round2 (lon + elon) = round2 lon := by
    rw [hlon, round2_grid k2 elon helon]
    have := round2_grid k2 0 (by norm_num)
    rw [add_zero] at this
    rw [this]
  have hflux2 : round4 (flux + eflux) = round4 flux := by
    rw [hflux, round4_grid k3 eflux heflux]
    have := round4_grid k3 0 (by norm_num)
    rw [add_zero] at this
    rw [this]
  unfold calculate_astronomical_consensus issComponent solarComponent timeComponent
  simp only [hlat2, hlon2, hflux2, if_neg ht1, if_neg ht2, hp1, hp2, hbucket]

/-- Witness for C8 amended: a concrete on-grid snapshot keeps its fingerprint
under a 1/300-degree latitude perturbation and a change of the timestamp
string within the same parsed 10-minute bucket. -/
theorem fingerprint_rounding_invariance_witness :
    calculate_astronomical_consensus id
        (fun _ => some ⟨2025, 1, 2, 3, 47, 55, 0⟩)
        ⟨"a1", some (0, 0), some 0, "x"⟩ =
      calculate_astronomical_consensus id
        (fun _ => some ⟨2025, 1, 2, 3, 47, 55, 0⟩)
        ⟨"a2", some (0 + 1/300, 0 + 0), some (0 + 0), "y"⟩ :=
  fingerprint_rounding_invariance id
    (fun _ => some ⟨2025, 1, 2, 3, 47, 55, 0⟩)
    0 0 0 (1/300) 0 0 0 0 0 "a1" "a2" "x" "y"
    ⟨2025, 1, 2, 3, 47, 55, 0⟩ ⟨2025, 1, 2, 3, 47, 55, 0⟩
    (by norm_num) (by rw [abs_of_nonneg (by norm_num : (0:ℚ) ≤ 1/300)]; norm_num)
    (by norm_num) (by simp)
    (by norm_num) (by simp)
    (by simp) (by simp)
    rfl rfl rfl rfl rfl rfl rfl

/-- C1: chains built only by addTransaction/createBlock with untouched
blocks always validate (the claim's first half), but — contrary to the
claim's second half — mutating the stored transaction's amount in the
concrete reachable chain chainW (50 → 9999, hashes and Merkle root left
stale) still validates, because is_chain_valid recomputes the block hash
from the STORED merkle_root, never from the transactions. -/
theorem chain_validity_tamper_evaluation :
    (∀ (H : String → String) (b : AstroBlockchain),
      Reachable H b → is_chain_valid H b = true) ∧
    Reachable id chainW ∧
    (get_latest_block chainWTampered).transactions.map Transaction.amount = [9999] ∧
    (get_latest_block chainW).transactions.map Transaction.amount = [50] ∧
    is_chain_valid id chainWTampered = true := by
  refine ⟨?_, ?_, ?_, ?_, ?_⟩
  · intro H b hr
    exact (reachable_invariant H b hr).2
  · exact Reachable.create _ _ _ (Reachable.add _ txW (Reachable.genesis "g"))
  · rfl
  · rfl
  · show chainValidFrom id chainWTampered.chain = true
    rw [show chainWTampered.chain = chainW.chain.map (fun bl =>
        { bl with transactions :=
            bl.transactions.map (fun t => { t with amount := 9999 }) }) from rfl,
      chainValidFrom_tx_map]
    exact (reachable_invariant id chainW
      (Reachable.create _ _ _ (Reachable.add _ txW (Reachable.genesis "g")))).2

/-- Witness for C1: the untouched-chain half evaluated on a concrete
genesis-only ledger. -/
theorem chain_validity_tamper_evaluation_witness :
    is_chain_valid id (newBlockchain id "w") = true :=
  chain_validity_tamper_evaluation.1 id (newBlockchain id "w")
    (Reachable.genesis "w")

end AstroChain
